import Mathlib

/-!
Shallow embedding of `zerver/views/integrations.py`: help-article view,
API-URI context builder, integrations context builder, the integration
documentation endpoint and the API endpoint reference page.

Python dictionaries are modelled as association lists with unique keys
(`assocSet` replaces the existing binding in place, or appends), request
handling as pure functions from explicit inputs (settings, subdomain,
registries, the set of resolvable templates) to results.
-/

/-- Association-list read, the embedding of Python `d[k]` lookup
(`none` models a `KeyError` / a failed `in` test). -/
def assocGet {α : Type} : List (String × α) → String → Option α
  | [], _ => none
  | p :: rest, k => if p.1 = k then some p.2 else assocGet rest k

/-- Association-list write, the embedding of Python `d[k] = v` on a
dict (unique keys): replace the binding in place, else append. -/
def assocSet {α : Type} : List (String × α) → String → α → List (String × α)
  | [], k, v => [(k, v)]
  | p :: rest, k, v => if p.1 = k then (k, v) :: rest else p :: assocSet rest k v

mutual

/-- A value stored in a request context dictionary: strings, booleans and
the three sorted registry views written by `add_integrations_context`. -/
inductive CtxVal : Type where
  | str : String → CtxVal
  | bool : Bool → CtxVal
  | strDict : List (String × String) → CtxVal
  | intDict : List (String × Integration) → CtxVal
  | lozDict : List (String × HubotLozenge) → CtxVal

/-- Modelled from the spec: the `Integration` registry entry class lives in
`zerver/lib/integrations.py`, outside this module.  Per the spec it carries a
name, a documentation file path, an optional per-integration context mapping
(`docContext`, the empty list standing for `None`/`{}`, both falsy), and a
context-contribution hook; `contrib` holds the entries that the hook
`add_doc_context` injects into a shared context. -/
inductive Integration : Type where
  | mk : (name : String) → (doc : String) →
      (docContext : List (String × CtxVal)) →
      (contrib : List (String × CtxVal)) → Integration

/-- Modelled from the spec: the `HubotLozenge` registry entry class lives in
`zerver/lib/integrations.py`, outside this module.  It is a badge entry with
its own context-contribution hook; `contrib` holds the entries the hook
injects into a shared context. -/
inductive HubotLozenge : Type where
  | mk : (contrib : List (String × CtxVal)) → HubotLozenge

end

/-- A request context: Python's `Dict[str, Any]` restricted to the values
this module stores. -/
abbrev Ctx := List (String × CtxVal)

def Integration.name : Integration → String
  | .mk n _ _ _ => n

def Integration.doc : Integration → String
  | .mk _ d _ _ => d

def Integration.docContext : Integration → Ctx
  | .mk _ _ dc _ => dc

def Integration.contrib : Integration → Ctx
  | .mk _ _ _ c => c

def HubotLozenge.contrib : HubotLozenge → Ctx
  | .mk c => c

/-- Python truthiness for the values a context can hold: empty strings and
empty dicts are falsy, booleans are themselves. -/
def CtxVal.truthy : CtxVal → Bool
  | .str s => !s.data.isEmpty
  | .bool b => b
  | .strDict l => !l.isEmpty
  | .intDict l => !l.isEmpty
  | .lozDict l => !l.isEmpty

/-- The Django settings consumed by this module, externally supplied. -/
structure ApiSettings where
  SUBDOMAIN_FOR_ROOT_DOMAIN : String
  ROOT_DOMAIN_LANDING_PAGE : Bool
  EXTERNAL_API_PATH : String
  EXTERNAL_URI_SCHEME : String

/-- The `display_subdomain` local of `add_api_uri_context`: the actual
subdomain unless the request is on the root domain with the landing page
enabled, in which case the fixed placeholder. -/
def displaySubdomain (s : ApiSettings) (subdomain : String) : String :=
  if subdomain ≠ s.SUBDOMAIN_FOR_ROOT_DOMAIN ∨ s.ROOT_DOMAIN_LANDING_PAGE = false
  then subdomain
  else "yourZulipDomain"

/-- The `html_settings_links` local of `add_api_uri_context`. -/
def htmlSettingsLinks (s : ApiSettings) (subdomain : String) : Bool :=
  if subdomain ≠ s.SUBDOMAIN_FOR_ROOT_DOMAIN ∨ s.ROOT_DOMAIN_LANDING_PAGE = false
  then true
  else false

/-- The `external_api_path_subdomain` value: subdomain-prefixed external API
path unless the display subdomain is the root-domain sentinel. -/
def externalApiPathSubdomain (s : ApiSettings) (subdomain : String) : String :=
  let d := displaySubdomain s subdomain
  if d ≠ s.SUBDOMAIN_FOR_ROOT_DOMAIN
  then d ++ "." ++ s.EXTERNAL_API_PATH
  else s.EXTERNAL_API_PATH

/-- The `external_api_uri_subdomain` value: the path prefixed with the
configured external URI scheme. -/
def externalApiUriSubdomain (s : ApiSettings) (subdomain : String) : String :=
  s.EXTERNAL_URI_SCHEME ++ externalApiPathSubdomain s subdomain

/-- `add_api_uri_context(context, request)`: writes the computed external API
path, external API URI and the HTML-settings-links flag into the context. -/
def addApiUriContext (s : ApiSettings) (subdomain : String) (ctx : Ctx) : Ctx :=
  let c1 := assocSet ctx "external_api_path_subdomain"
      (.str (externalApiPathSubdomain s subdomain))
  let c2 := assocSet c1 "external_api_uri_subdomain"
      (.str (externalApiUriSubdomain s subdomain))
  assocSet c2 "html_settings_links" (.bool (htmlSettingsLinks s subdomain))

/-- Python `s.endswith(suffix)`. -/
def strEndsWith (s suffix : String) : Bool :=
  suffix.data.isSuffixOf s.data

/-- `HelpView.get_path`: empty article name maps to the index article, a name
containing a path separator to the missing article, and the result is the
path template `zerver/help/%s.md` applied to the name. -/
def getPath (article : String) : String :=
  let a := if article = "" then "index"
           else if article.data.contains '/' then "missing"
           else article
  "zerver/help/" ++ a ++ ".md"

/-- `HelpView.get_context_data`: resolves the templated path against the set
of resolvable templates; on failure substitutes the missing-article path;
also sets the index-page and help-center flags. -/
def helpGetContextData (templates : String → Bool) (article : String)
    (superCtx : Ctx) : Ctx :=
  let path := getPath article
  let c1 := if templates path
            then assocSet superCtx "article" (.str path)
            else assocSet superCtx "article" (.str (getPath "missing"))
  let c2 := assocSet c1 "not_index_page" (.bool (! strEndsWith path "/index.md"))
  assocSet c2 "page_is_help_center" (.bool true)

/-- The status code of the response returned by `HelpView.get`: the rendered
response starts at 200, is forced to 404 when the resolved path has no
template, and forced to 404 again when the article name contains `/`. -/
def helpGetStatus (templates : String → Bool) (article : String) : Nat :=
  let path := getPath article
  let s1 := if templates path then 200 else 404
  if article.data.contains '/' then 404 else s1

/-- The three static registries consumed read-only by this module; they are
populated in `zerver/lib/integrations.py`, modelled here as association
lists whose iteration order is arbitrary. -/
structure Registries where
  CATEGORIES : List (String × String)
  INTEGRATIONS : List (String × Integration)
  HUBOT_LOZENGES : List (String × HubotLozenge)

/-- Python `<` on lists of characters: lexicographic comparison by code
point, the order `sorted` uses on the unique keys of a dict. -/
def lexLt : List Char → List Char → Bool
  | _, [] => false
  | [], _ :: _ => true
  | a :: s, b :: t =>
    if a < b then true else if b < a then false else lexLt s t

/-- Python `<` on strings. -/
def pyLt (s t : String) : Bool := lexLt s.data t.data

/-- Python `<=` on strings. -/
def pyLe (s t : String) : Bool := pyLt s t || decide (s = t)

/-- Python `OrderedDict(sorted(d.items()))`: the items sorted by key (keys
are unique in a dict, so tuple comparison never reaches the values). -/
def sortReg {α : Type} (l : List (String × α)) : List (String × α) :=
  List.insertionSort (fun a b => pyLe a.1 b.1 = true) l

/-- Modelled from the spec: the `add_doc_context` hook of a registry entry
(defined in `zerver/lib/integrations.py`) injects the entry's own derived
fields into the shared context, mutating it. -/
def addDocContext (contrib : Ctx) (ctx : Ctx) : Ctx :=
  contrib.foldl (fun c kv => assocSet c kv.1 kv.2) ctx

/-- The condition of line 104 of the source: the context has an
`html_settings_links` key holding a truthy value. -/
def htmlLinksEnabled (ctx : Ctx) : Bool :=
  match assocGet ctx "html_settings_links" with
  | some v => v.truthy
  | none => false

/-- `add_integrations_context(context)`: writes the three alphabetically
sorted registry views, chooses plain-text or HTML-anchor snippets for the
two UI strings from the `html_settings_links` flag, then runs every
integration's and every lozenge's context-contribution hook. -/
def addIntegrationsContext (regs : Registries) (ctx : Ctx) : Ctx :=
  let si := sortReg regs.INTEGRATIONS
  let sh := sortReg regs.HUBOT_LOZENGES
  let c1 := assocSet ctx "categories_dict" (.strDict (sortReg regs.CATEGORIES))
  let c2 := assocSet c1 "integrations_dict" (.intDict si)
  let c3 := assocSet c2 "hubot_lozenges_dict" (.lozDict sh)
  let links := htmlLinksEnabled c3
  let settingsHtml := if links
    then "<a href=\"../../#settings\">Zulip settings page</a>"
    else "Zulip settings page"
  let subscriptionsHtml := if links
    then "<a target=\"_blank\" href=\"../../#streams\">streams page</a>"
    else "streams page"
  let c4 := assocSet c3 "settings_html" (.str settingsHtml)
  let c5 := assocSet c4 "subscriptions_html" (.str subscriptionsHtml)
  let c6 := si.foldl (fun c p => addDocContext p.2.contrib c) c5
  sh.foldl (fun c p => addDocContext p.2.contrib c) c6

/-- An HTTP response: status code and body. -/
structure HttpResponse where
  status : Nat
  body : String

/-- `integration_doc(request, integration_name)`: looks the name up in the
INTEGRATIONS registry (the absent parameter defaults to `None`, which no
string key equals); on a missing key returns `HttpResponseNotFound()` (404,
empty body) without rendering.  On success Python binds
`context = integration.doc_context or {}`: a non-empty `doc_context` is
aliased, so every key the enrichment writes lands in the registry entry's
own mapping — the second component returns the registries as they stand
after the call. -/
def integrationDoc (regs : Registries) (integrationName : Option String)
    (render : String → Ctx → String) : HttpResponse × Registries :=
  match integrationName with
  | none => (⟨404, ""⟩, regs)
  | some n =>
    match assocGet regs.INTEGRATIONS n with
    | none => (⟨404, ""⟩, regs)
    | some integ =>
      let ctx := addIntegrationsContext regs integ.docContext
      let body := render integ.doc ctx
      let integ' := Integration.mk integ.name integ.doc ctx integ.contrib
      let regs' := if integ.docContext.isEmpty then regs
        else { regs with INTEGRATIONS :=
            regs.INTEGRATIONS.map (fun p => if p.1 = n then (p.1, integ') else p) }
      (⟨200, body⟩, regs')

/-- Fuel-driven core of Python `str.replace`: scan left to right, replace
each non-overlapping occurrence of `pat` by `rep`. -/
def replaceAux (pat rep : List Char) : Nat → List Char → List Char
  | 0, s => s
  | _, [] => []
  | fuel+1, c :: rest =>
      if pat.isPrefixOf (c :: rest)
      then rep ++ replaceAux pat rep fuel ((c :: rest).drop pat.length)
      else c :: replaceAux pat rep fuel rest

/-- Python `s.replace(pat, rep)` for a non-empty pattern (the only patterns
this module passes are non-empty literals). -/
def pyReplace (s pat rep : String) : String :=
  if pat.data.isEmpty then s
  else ⟨replaceAux pat.data rep.data s.data.length s.data⟩

/-- The `extended_response` pretty-printing of `api_endpoint_docs`: a
single-line example response gets a line break after every comma-space,
a multi-line one passes through unchanged. -/
def extendedResponse (response : String) : String :=
  if response.data.contains '\n'
  then response
  else pyReplace response ", " ",\n "

/-- A record of the static JSON catalog `templates/zerver/api_content.json`:
an endpoint path, an example-request mapping (language to snippet, with a
`curl` key), an example response, and the derived rendered response added
by `api_endpoint_docs`. -/
structure ApiCall where
  endpoint : String
  exampleRequest : List (String × String)
  exampleResponse : String
  renderedResponse : Option String

/-- The per-record transformation of `api_endpoint_docs`: make the endpoint
absolute, rewrite the hard-coded API host in the example curl command, and
render the (possibly pretty-printed) example response as a code block;
`none` models the uncaught `KeyError` on a record without a curl example. -/
def transformCall (uri : String) (convert : String → String) (call : ApiCall) :
    Option ApiCall :=
  match assocGet call.exampleRequest "curl" with
  | none => none
  | some curl => some { call with
      endpoint := uri ++ "/v1/" ++ call.endpoint,
      exampleRequest := assocSet call.exampleRequest "curl"
        (pyReplace curl "https://api.zulip.com" uri),
      renderedResponse :=
        some (convert ("~~~ .py\n" ++ extendedResponse call.exampleResponse ++ "\n~~~\n")) }

/-- Transform every record, propagating a failure (Python's uncaught
exception aborts the whole request). -/
def mapOrFail {α β : Type} (f : α → Option β) : List α → Option (List β)
  | [] => some []
  | a :: rest =>
    match f a, mapOrFail f rest with
    | some b, some bs => some (b :: bs)
    | _, _ => none

/-- `api_endpoint_docs(request)`: builds the API-URI context from the
request's subdomain and maps the per-record transformation over the parsed
catalog (`convert` abstracts the external markdown renderer). -/
def apiEndpointDocs (s : ApiSettings) (subdomain : String)
    (convert : String → String) (calls : List ApiCall) : Option (List ApiCall) :=
  mapOrFail (transformCall (externalApiUriSubdomain s subdomain) convert) calls

/-- A registry state with one integration whose `doc_context` is non-empty:
the input that makes the aliasing in `integration_doc` observable. -/
def regsBug : Registries :=
  ⟨[], [("foo", Integration.mk "foo" "zerver/integrations/doc/foo.md"
      [("k", CtxVal.str "v")] [])], []⟩

/-- The registries as they stand after `integration_doc` has served the
`foo` integration of `regsBug`. -/
def regsBugAfter : Registries :=
  (integrationDoc regsBug (some "foo") (fun _ _ => "")).2

/-- Concrete catalog record (one call, two host occurrences in the example
curl command) used to exercise the endpoint rewriting. -/
def exCalls : List ApiCall :=
  [⟨"messages", [("curl", "curl https://api.zulip.com/a https://api.zulip.com/b")],
    "a, b", none⟩]

/-- The transformed record list `api_endpoint_docs` produces from `exCalls`
for subdomain `chat` and the identity renderer. -/
def exOut : List ApiCall :=
  [⟨"https://chat.zulip.example/v1/messages",
    [("curl", "curl https://chat.zulip.example/a https://chat.zulip.example/b")],
    "a, b", some "~~~ .py\na,\n b\n~~~\n"⟩]

theorem assocGet_assocSet_self {α : Type} (l : List (String × α)) (k : String) (v : α) :
    assocGet (assocSet l k v) k = some v := by
  induction l with
  | nil => simp [assocSet, assocGet]
  | cons p rest ih =>
    by_cases h : p.1 = k
    · simp [assocSet, assocGet, h]
    · simp [assocSet, assocGet, h, ih]

theorem assocGet_assocSet_ne {α : Type} (l : List (String × α)) {k k' : String}
    (v : α) (h : k' ≠ k) : assocGet (assocSet l k' v) k = assocGet l k := by
  induction l with
  | nil => simp [assocSet, assocGet, h]
  | cons p rest ih =>
    by_cases hp : p.1 = k'
    · simp [assocSet, assocGet, hp, h]
    · simp [assocSet, assocGet, hp, ih]

theorem assocGet_addDocContext (contrib : Ctx) (ctx : Ctx) (k : String)
    (h : ∀ kv ∈ contrib, kv.1 ≠ k) :
    assocGet (addDocContext contrib ctx) k = assocGet ctx k := by
  induction contrib generalizing ctx with
  | nil => simp [addDocContext]
  | cons kv rest ih =>
    have hkv : kv.1 ≠ k := h kv (List.mem_cons_self kv rest)
    have hrest : ∀ p ∈ rest, p.1 ≠ k := fun p hp => h p (List.mem_cons_of_mem kv hp)
    simp only [addDocContext, List.foldl_cons]
    rw [show (rest.foldl (fun c q => assocSet c q.1 q.2) (assocSet ctx kv.1 kv.2))
        = addDocContext rest (assocSet ctx kv.1 kv.2) from rfl,
      ih _ hrest, assocGet_assocSet_ne _ _ hkv]

theorem assocGet_foldl_hooks {β : Type} (f : β → Ctx)
    (entries : List (String × β)) (ctx : Ctx) (k : String)
    (h : ∀ p ∈ entries, ∀ kv ∈ f p.2, kv.1 ≠ k) :
    assocGet (entries.foldl (fun c p => addDocContext (f p.2) c) ctx) k
      = assocGet ctx k := by
  induction entries generalizing ctx with
  | nil => simp
  | cons p rest ih =>
    have hp : ∀ kv ∈ f p.2, kv.1 ≠ k := h p (List.mem_cons_self p rest)
    have hrest : ∀ q ∈ rest, ∀ kv ∈ f q.2, kv.1 ≠ k :=
      fun q hq => h q (List.mem_cons_of_mem p hq)
    simp only [List.foldl_cons]
    rw [ih _ hrest, assocGet_addDocContext _ _ _ hp]

theorem lexLt_iff : ∀ s t : List Char, lexLt s t = true ↔ List.Lex (· < ·) s t
  | [], [] => by
    simp only [lexLt]
    constructor
    · intro h; exact absurd h (by simp)
    · intro h; cases h
  | [], b :: t => by
    simp only [lexLt]
    exact ⟨fun _ => List.Lex.nil, fun _ => trivial⟩
  | a :: s, [] => by
    simp only [lexLt]
    constructor
    · intro h; exact absurd h (by simp)
    · intro h; cases h
  | a :: s, b :: t => by
    simp only [lexLt]
    by_cases hab : a < b
    · simp only [hab, if_true]
      exact ⟨fun _ => List.Lex.rel hab, fun _ => trivial⟩
    · by_cases hba : b < a
      · simp only [hab, hba, if_false, if_true]
        constructor
        · intro h; exact absurd h (by simp)
        · intro h
          cases h with
          | cons h' => exact absurd hba (lt_irrefl a)
          | rel h' => exact absurd h' hab
      · have heq : a = b := le_antisymm (le_of_not_lt hba) (le_of_not_lt hab)
        subst heq
        simp only [hab, hba, if_false]
        constructor
        · intro h; exact List.Lex.cons ((lexLt_iff s t).mp h)
        · intro h
          cases h with
          | cons h' => exact (lexLt_iff s t).mpr h'
          | rel h' => exact absurd h' (lt_irrefl a)

theorem pyLt_iff {s t : String} : pyLt s t = true ↔ s < t := by
  rw [String.lt_iff_toList_lt]
  exact lexLt_iff s.data t.data

theorem pyLe_iff {s t : String} : pyLe s t = true ↔ s ≤ t := by
  rw [le_iff_lt_or_eq, pyLe, Bool.or_eq_true, decide_eq_true_eq]
  exact or_congr pyLt_iff Iff.rfl

theorem pyLe_total (s t : String) : pyLe s t = true ∨ pyLe t s = true := by
  rcases le_total s t with h | h
  · exact Or.inl (pyLe_iff.mpr h)
  · exact Or.inr (pyLe_iff.mpr h)

theorem pyLe_trans {s t u : String} (h1 : pyLe s t = true) (h2 : pyLe t u = true) :
    pyLe s u = true :=
  pyLe_iff.mpr (le_trans (pyLe_iff.mp h1) (pyLe_iff.mp h2))

theorem sortReg_perm {α : Type} (l : List (String × α)) : (sortReg l).Perm l :=
  List.perm_insertionSort _ l

theorem sortReg_sorted_le {α : Type} (l : List (String × α)) :
    (sortReg l).Sorted (fun a b => a.1 ≤ b.1) := by
  have h : (sortReg l).Sorted (fun a b : String × α => pyLe a.1 b.1 = true) := by
    unfold sortReg
    exact @List.sorted_insertionSort _ _ _
      ⟨fun a b => pyLe_total a.1 b.1⟩
      ⟨by intro a b c h1 h2; exact pyLe_trans h1 h2⟩ l
  exact h.imp (fun hab => pyLe_iff.mp hab)

theorem sortReg_sorted_lt {α : Type} (l : List (String × α))
    (h : (l.map Prod.fst).Nodup) :
    (sortReg l).Sorted (fun a b => a.1 < b.1) := by
  have hperm : ((sortReg l).map Prod.fst).Perm (l.map Prod.fst) :=
    (sortReg_perm l).map Prod.fst
  have hnd : ((sortReg l).map Prod.fst).Nodup := hperm.symm.nodup h
  have hne : (sortReg l).Pairwise (fun a b => a.1 ≠ b.1) :=
    (List.pairwise_map).mp hnd
  have hle : (sortReg l).Pairwise (fun a b => a.1 ≤ b.1) := sortReg_sorted_le l
  exact (hle.and hne).imp (fun h => lt_of_le_of_ne h.1 h.2)

theorem sortReg_keys_sorted {α : Type} (l : List (String × α))
    (h : (l.map Prod.fst).Nodup) :
    ((sortReg l).map Prod.fst).Sorted (fun a b => a < b) :=
  (List.pairwise_map).mpr (sortReg_sorted_lt l h)

theorem sortReg_eq_of_perm {α : Type} {l₁ l₂ : List (String × α)}
    (h : (l₁.map Prod.fst).Nodup) (hp : l₁.Perm l₂) :
    sortReg l₁ = sortReg l₂ := by
  have h₂ : (l₂.map Prod.fst).Nodup := (hp.map Prod.fst).nodup h
  exact @List.eq_of_perm_of_sorted _ _ ⟨fun _ _ h1 h2 => (lt_asymm h1 h2).elim⟩ _ _
    ((sortReg_perm l₁).trans (hp.trans (sortReg_perm l₂).symm))
    (sortReg_sorted_lt l₁ h) (sortReg_sorted_lt l₂ h₂)

/-- C1: for every help-article request whose article name contains the
character `/`, `HelpView.get` returns a response with status code 404,
regardless of whether a template matching the resolved path exists. -/
theorem helpGetStatus_slash_404 (templates : String → Bool) (article : String)
    (h : article.data.contains '/' = true) :
    helpGetStatus templates article = 404 := by
  simp only [helpGetStatus, h]
  rfl

theorem helpGetStatus_slash_404_witness :
    ("a/b".data.contains '/' = true)
    ∧ helpGetStatus (fun _ => true) "a/b" = 404 :=
  ⟨by decide, helpGetStatus_slash_404 (fun _ => true) "a/b" (by decide)⟩

/-- C2: if the request's subdomain equals the root-domain sentinel and the
landing-page setting is enabled, the display subdomain used to build the
external API path is the placeholder `yourZulipDomain` and
`context["html_settings_links"]` is set to `False`; for any other subdomain
the display subdomain equals the actual subdomain and
`context["html_settings_links"]` is set to `True`. -/
theorem addApiUriContext_display_subdomain (s : ApiSettings) (subdomain : String)
    (ctx : Ctx) :
    (subdomain = s.SUBDOMAIN_FOR_ROOT_DOMAIN → s.ROOT_DOMAIN_LANDING_PAGE = true →
      displaySubdomain s subdomain = "yourZulipDomain"
      ∧ assocGet (addApiUriContext s subdomain ctx) "html_settings_links"
          = some (.bool false))
    ∧ (subdomain ≠ s.SUBDOMAIN_FOR_ROOT_DOMAIN →
      displaySubdomain s subdomain = subdomain
      ∧ assocGet (addApiUriContext s subdomain ctx) "html_settings_links"
          = some (.bool true)) := by
  constructor
  · intro h1 h2
    refine ⟨?_, ?_⟩
    · simp [displaySubdomain, h1, h2]
    · simp only [addApiUriContext]
      rw [assocGet_assocSet_self]
      simp [htmlSettingsLinks, h1, h2]
  · intro h1
    refine ⟨?_, ?_⟩
    · simp [displaySubdomain, h1]
    · simp only [addApiUriContext]
      rw [assocGet_assocSet_self]
      simp [htmlSettingsLinks, h1]

theorem addApiUriContext_display_subdomain_witness :
    (displaySubdomain ⟨"", true, "api.zulip.com", "https://"⟩ "" = "yourZulipDomain"
      ∧ assocGet (addApiUriContext ⟨"", true, "api.zulip.com", "https://"⟩ "" [])
          "html_settings_links" = some (.bool false))
    ∧ (displaySubdomain ⟨"", true, "api.zulip.com", "https://"⟩ "acme" = "acme"
      ∧ assocGet (addApiUriContext ⟨"", true, "api.zulip.com", "https://"⟩ "acme" [])
          "html_settings_links" = some (.bool true)) :=
  ⟨(addApiUriContext_display_subdomain ⟨"", true, "api.zulip.com", "https://"⟩ "" []).1
      rfl rfl,
   (addApiUriContext_display_subdomain ⟨"", true, "api.zulip.com", "https://"⟩ "acme" []).2
      (by decide)⟩

/-- C4: for every article name without a path separator whose resolved
template path cannot be resolved, `HelpView` substitutes the missing-article
path (the path template applied to `missing`) as `context["article"]` and
the returned response has status code 404. -/
theorem helpView_unresolved_missing (templates : String → Bool) (article : String)
    (superCtx : Ctx)
    (hsep : article.data.contains '/' = false)
    (hres : templates (getPath article) = false) :
    assocGet (helpGetContextData templates article superCtx) "article"
        = some (.str (getPath "missing"))
    ∧ helpGetStatus templates article = 404 := by
  constructor
  · simp only [helpGetContextData, hres, Bool.false_eq_true, if_false]
    rw [assocGet_assocSet_ne _ _ (by decide), assocGet_assocSet_ne _ _ (by decide),
      assocGet_assocSet_self]
  · simp [helpGetStatus, hres, hsep]

theorem helpView_unresolved_missing_witness :
    ("nosuch".data.contains '/' = false)
    ∧ (assocGet (helpGetContextData (fun _ => false) "nosuch" []) "article"
        = some (.str (getPath "missing"))
      ∧ helpGetStatus (fun _ => false) "nosuch" = 404) :=
  ⟨by decide, helpView_unresolved_missing (fun _ => false) "nosuch" [] (by decide) rfl⟩

/-- C5: for every `integration_name` not present in the INTEGRATIONS registry
(including the absent parameter defaulting to `None`), `integration_doc`
returns a 404 response with an empty body, no rendering takes place (the
result is the same for every renderer), and the registries are untouched. -/
theorem integrationDoc_unknown_404 (regs : Registries) (integrationName : Option String)
    (render : String → Ctx → String)
    (h : integrationName.bind (fun n => assocGet regs.INTEGRATIONS n) = none) :
    integrationDoc regs integrationName render = (⟨404, ""⟩, regs) := by
  cases integrationName with
  | none => rfl
  | some n =>
    have hn : assocGet regs.INTEGRATIONS n = none := by simpa using h
    simp [integrationDoc, hn]

theorem integrationDoc_unknown_404_witness :
    integrationDoc ⟨[], [], []⟩ (some "x") (fun _ _ => "rendered")
      = (⟨404, ""⟩, ⟨[], [], []⟩) :=
  integrationDoc_unknown_404 ⟨[], [], []⟩ (some "x") (fun _ _ => "rendered") rfl

/-- C7: in `api_endpoint_docs`, an example response without a newline has
every occurrence of comma-space replaced by comma-newline-space before
rendering (so `a, b, c` becomes `a,\n b,\n c`); a response containing a
newline is passed to rendering unchanged. -/
theorem extendedResponse_pretty_print :
    (∀ s : String, s.data.contains '\n' = false →
      extendedResponse s = pyReplace s ", " ",\n ")
    ∧ (∀ s : String, s.data.contains '\n' = true → extendedResponse s = s)
    ∧ extendedResponse "a, b, c" = "a,\n b,\n c" := by
  refine ⟨fun s h => ?_, fun s h => ?_, ?_⟩
  · simp only [extendedResponse, h]
    rfl
  · simp only [extendedResponse, h]
    rfl
  · rfl

theorem extendedResponse_pretty_print_witness :
    extendedResponse "x, y" = pyReplace "x, y" ", " ",\n "
    ∧ extendedResponse "a\nb" = "a\nb" :=
  ⟨extendedResponse_pretty_print.1 "x, y" (by decide),
   extendedResponse_pretty_print.2.1 "a\nb" (by decide)⟩

theorem mapOrFail_get {α β : Type} (f : α → Option β) :
    ∀ (l : List α) (out : List β), mapOrFail f l = some out →
      out.length = l.length
      ∧ ∀ i (hi : i < l.length) (ho : i < out.length),
          f (l.get ⟨i, hi⟩) = some (out.get ⟨i, ho⟩)
  | [], out, h => by
    simp only [mapOrFail, Option.some.injEq] at h
    subst h
    exact ⟨rfl, fun i hi _ => absurd hi (Nat.not_lt_zero i)⟩
  | a :: rest, out, h => by
    simp only [mapOrFail] at h
    cases hfa : f a with
    | none => rw [hfa] at h; exact absurd h (by simp)
    | some b =>
      cases hrest : mapOrFail f rest with
      | none => rw [hfa, hrest] at h; exact absurd h (by simp)
      | some bs =>
        rw [hfa, hrest] at h
        obtain ⟨hl, hg⟩ := mapOrFail_get f rest bs hrest
        have hout : out = b :: bs := (Option.some.inj h).symm
        subst hout
        refine ⟨by simp [hl], ?_⟩
        intro i hi ho
        cases i with
        | zero => simpa using hfa
        | succ j =>
          exact hg j (Nat.lt_of_succ_lt_succ hi) (Nat.lt_of_succ_lt_succ ho)

/-- C8: for every record of the JSON catalog, `api_endpoint_docs` rewrites
the `endpoint` field to the computed external API URI followed by `/v1/`
followed by the original endpoint, and replaces every occurrence of the
hard-coded host `https://api.zulip.com` in the record's example curl
command with the computed external API URI. -/
theorem apiEndpointDocs_rewrites (s : ApiSettings) (subdomain : String)
    (convert : String → String) (calls out : List ApiCall)
    (h : apiEndpointDocs s subdomain convert calls = some out) :
    out.length = calls.length
    ∧ ∀ i (hi : i < calls.length) (ho : i < out.length) (curl : String),
        assocGet (calls.get ⟨i, hi⟩).exampleRequest "curl" = some curl →
        (out.get ⟨i, ho⟩).endpoint
            = externalApiUriSubdomain s subdomain ++ "/v1/"
                ++ (calls.get ⟨i, hi⟩).endpoint
        ∧ assocGet (out.get ⟨i, ho⟩).exampleRequest "curl"
            = some (pyReplace curl "https://api.zulip.com"
                (externalApiUriSubdomain s subdomain)) := by
  obtain ⟨hlen, hget⟩ := mapOrFail_get _ calls out h
  refine ⟨hlen, fun i hi ho curl hcurl => ?_⟩
  have hf := hget i hi ho
  simp only [transformCall, hcurl] at hf
  have heq := Option.some.inj hf
  constructor
  · rw [← heq]
  · rw [← heq]
    exact assocGet_assocSet_self _ _ _

theorem apiEndpointDocs_rewrites_witness :
    (apiEndpointDocs ⟨"", false, "zulip.example", "https://"⟩ "chat" (fun s => s) exCalls
      = some exOut)
    ∧ ((exOut.get ⟨0, by decide⟩).endpoint
        = externalApiUriSubdomain ⟨"", false, "zulip.example", "https://"⟩ "chat"
            ++ "/v1/" ++ (exCalls.get ⟨0, by decide⟩).endpoint
      ∧ assocGet (exOut.get ⟨0, by decide⟩).exampleRequest "curl"
        = some (pyReplace "curl https://api.zulip.com/a https://api.zulip.com/b"
            "https://api.zulip.com"
            (externalApiUriSubdomain ⟨"", false, "zulip.example", "https://"⟩ "chat"))) :=
  ⟨rfl,
   (apiEndpointDocs_rewrites ⟨"", false, "zulip.example", "https://"⟩ "chat"
      (fun s => s) exCalls exOut rfl).2 0 (by decide) (by decide)
      "curl https://api.zulip.com/a https://api.zulip.com/b" rfl⟩

theorem assocGet_addIntegrationsContext_dict (regs : Registries) (ctx : Ctx)
    (k : String)
    (h1 : ∀ p ∈ regs.INTEGRATIONS, ∀ kv ∈ p.2.contrib, kv.1 ≠ k)
    (h2 : ∀ p ∈ regs.HUBOT_LOZENGES, ∀ kv ∈ p.2.contrib, kv.1 ≠ k)
    (hk1 : k ≠ "settings_html") (hk2 : k ≠ "subscriptions_html") :
    assocGet (addIntegrationsContext regs ctx) k
      = assocGet (assocSet (assocSet (assocSet ctx "categories_dict"
            (.strDict (sortReg regs.CATEGORIES))) "integrations_dict"
            (.intDict (sortReg regs.INTEGRATIONS))) "hubot_lozenges_dict"
            (.lozDict (sortReg regs.HUBOT_LOZENGES))) k := by
  have h1' : ∀ p ∈ sortReg regs.INTEGRATIONS, ∀ kv ∈ p.2.contrib, kv.1 ≠ k :=
    fun p hp => h1 p ((sortReg_perm regs.INTEGRATIONS).mem_iff.mp hp)
  have h2' : ∀ p ∈ sortReg regs.HUBOT_LOZENGES, ∀ kv ∈ p.2.contrib, kv.1 ≠ k :=
    fun p hp => h2 p ((sortReg_perm regs.HUBOT_LOZENGES).mem_iff.mp hp)
  simp only [addIntegrationsContext]
  rw [assocGet_foldl_hooks _ _ _ _ h2', assocGet_foldl_hooks _ _ _ _ h1',
    assocGet_assocSet_ne _ _ (Ne.symm hk2), assocGet_assocSet_ne _ _ (Ne.symm hk1)]

/-- C6: `add_integrations_context` writes under `categories_dict`,
`integrations_dict` and `hubot_lozenges_dict` mappings whose iteration order
is ascending alphabetical order of their keys, independent of the iteration
order of the underlying registries (a permutation of a registry yields the
same sorted view). -/
theorem addIntegrationsContext_sorted_dicts (regs regs₂ : Registries) (ctx : Ctx)
    (hc : (regs.CATEGORIES.map Prod.fst).Nodup)
    (hi : (regs.INTEGRATIONS.map Prod.fst).Nodup)
    (hh : (regs.HUBOT_LOZENGES.map Prod.fst).Nodup)
    (hpc : regs.CATEGORIES.Perm regs₂.CATEGORIES)
    (hpi : regs.INTEGRATIONS.Perm regs₂.INTEGRATIONS)
    (hph : regs.HUBOT_LOZENGES.Perm regs₂.HUBOT_LOZENGES)
    (h1 : ∀ p ∈ regs.INTEGRATIONS, ∀ kv ∈ p.2.contrib,
        kv.1 ≠ "categories_dict" ∧ kv.1 ≠ "integrations_dict"
          ∧ kv.1 ≠ "hubot_lozenges_dict")
    (h2 : ∀ p ∈ regs.HUBOT_LOZENGES, ∀ kv ∈ p.2.contrib,
        kv.1 ≠ "categories_dict" ∧ kv.1 ≠ "integrations_dict"
          ∧ kv.1 ≠ "hubot_lozenges_dict") :
    (assocGet (addIntegrationsContext regs ctx) "categories_dict"
        = some (.strDict (sortReg regs.CATEGORIES))
      ∧ ((sortReg regs.CATEGORIES).map Prod.fst).Sorted (fun a b => a < b)
      ∧ sortReg regs.CATEGORIES = sortReg regs₂.CATEGORIES)
    ∧ (assocGet (addIntegrationsContext regs ctx) "integrations_dict"
        = some (.intDict (sortReg regs.INTEGRATIONS))
      ∧ ((sortReg regs.INTEGRATIONS).map Prod.fst).Sorted (fun a b => a < b)
      ∧ sortReg regs.INTEGRATIONS = sortReg regs₂.INTEGRATIONS)
    ∧ (assocGet (addIntegrationsContext regs ctx) "hubot_lozenges_dict"
        = some (.lozDict (sortReg regs.HUBOT_LOZENGES))
      ∧ ((sortReg regs.HUBOT_LOZENGES).map Prod.fst).Sorted (fun a b => a < b)
      ∧ sortReg regs.HUBOT_LOZENGES = sortReg regs₂.HUBOT_LOZENGES) := by
  refine ⟨⟨?_, sortReg_keys_sorted _ hc, sortReg_eq_of_perm hc hpc⟩,
    ⟨?_, sortReg_keys_sorted _ hi, sortReg_eq_of_perm hi hpi⟩,
    ⟨?_, sortReg_keys_sorted _ hh, sortReg_eq_of_perm hh hph⟩⟩
  · rw [assocGet_addIntegrationsContext_dict regs ctx _
      (fun p hp kv hkv => (h1 p hp kv hkv).1) (fun p hp kv hkv => (h2 p hp kv hkv).1)
      (by decide) (by decide)]
    rw [assocGet_assocSet_ne _ _ (by decide), assocGet_assocSet_ne _ _ (by decide),
      assocGet_assocSet_self]
  · rw [assocGet_addIntegrationsContext_dict regs ctx _
      (fun p hp kv hkv => (h1 p hp kv hkv).2.1) (fun p hp kv hkv => (h2 p hp kv hkv).2.1)
      (by decide) (by decide)]
    rw [assocGet_assocSet_ne _ _ (by decide), assocGet_assocSet_self]
  · rw [assocGet_addIntegrationsContext_dict regs ctx _
      (fun p hp kv hkv => (h1 p hp kv hkv).2.2) (fun p hp kv hkv => (h2 p hp kv hkv).2.2)
      (by decide) (by decide)]
    rw [assocGet_assocSet_self]

theorem addIntegrationsContext_sorted_dicts_witness :
    assocGet (addIntegrationsContext ⟨[("b", "B"), ("a", "A")], [], []⟩ [])
        "categories_dict"
      = some (.strDict (sortReg [("b", "B"), ("a", "A")]))
    ∧ ((sortReg ([("b", "B"), ("a", "A")] : List (String × String))).map
        Prod.fst).Sorted (fun a b => a < b)
    ∧ sortReg ([("b", "B"), ("a", "A")] : List (String × String))
        = sortReg [("a", "A"), ("b", "B")] :=
  (addIntegrationsContext_sorted_dicts ⟨[("b", "B"), ("a", "A")], [], []⟩
    ⟨[("a", "A"), ("b", "B")], [], []⟩ [] (by decide) (by decide) (by decide)
    (by decide) (List.Perm.refl _) (List.Perm.refl _)
    (by simp) (by simp)).1

/-- C9: `add_integrations_context` sets `settings_html` and
`subscriptions_html` to HTML anchor snippets exactly when the incoming
context contains the key `html_settings_links` with a truthy value, and to
the plain-text strings `Zulip settings page` and `streams page` in every
other case (key absent or falsy). -/
theorem addIntegrationsContext_snippets (regs : Registries) (ctx : Ctx)
    (h1 : ∀ p ∈ regs.INTEGRATIONS, ∀ kv ∈ p.2.contrib,
        kv.1 ≠ "settings_html" ∧ kv.1 ≠ "subscriptions_html")
    (h2 : ∀ p ∈ regs.HUBOT_LOZENGES, ∀ kv ∈ p.2.contrib,
        kv.1 ≠ "settings_html" ∧ kv.1 ≠ "subscriptions_html") :
    assocGet (addIntegrationsContext regs ctx) "settings_html"
      = some (.str (if htmlLinksEnabled ctx
          then "<a href=\"../../#settings\">Zulip settings page</a>"
          else "Zulip settings page"))
    ∧ assocGet (addIntegrationsContext regs ctx) "subscriptions_html"
      = some (.str (if htmlLinksEnabled ctx
          then "<a target=\"_blank\" href=\"../../#streams\">streams page</a>"
          else "streams page")) := by
  have h1' : ∀ p ∈ sortReg regs.INTEGRATIONS, ∀ kv ∈ p.2.contrib,
      kv.1 ≠ "settings_html" ∧ kv.1 ≠ "subscriptions_html" :=
    fun p hp => h1 p ((sortReg_perm regs.INTEGRATIONS).mem_iff.mp hp)
  have h2' : ∀ p ∈ sortReg regs.HUBOT_LOZENGES, ∀ kv ∈ p.2.contrib,
      kv.1 ≠ "settings_html" ∧ kv.1 ≠ "subscriptions_html" :=
    fun p hp => h2 p ((sortReg_perm regs.HUBOT_LOZENGES).mem_iff.mp hp)
  have hlinks : ∀ v1 v2 v3 : CtxVal,
      htmlLinksEnabled (assocSet (assocSet (assocSet ctx "categories_dict" v1)
        "integrations_dict" v2) "hubot_lozenges_dict" v3) = htmlLinksEnabled ctx := by
    intro v1 v2 v3
    simp only [htmlLinksEnabled]
    rw [assocGet_assocSet_ne _ _ (by decide), assocGet_assocSet_ne _ _ (by decide),
      assocGet_assocSet_ne _ _ (by decide)]
  constructor
  · simp only [addIntegrationsContext]
    rw [assocGet_foldl_hooks _ _ _ _ (fun p hp kv hkv => (h2' p hp kv hkv).1),
      assocGet_foldl_hooks _ _ _ _ (fun p hp kv hkv => (h1' p hp kv hkv).1),
      assocGet_assocSet_ne _ _ (by decide), assocGet_assocSet_self, hlinks]
  · simp only [addIntegrationsContext]
    rw [assocGet_foldl_hooks _ _ _ _ (fun p hp kv hkv => (h2' p hp kv hkv).2),
      assocGet_foldl_hooks _ _ _ _ (fun p hp kv hkv => (h1' p hp kv hkv).2),
      assocGet_assocSet_self, hlinks]

theorem addIntegrationsContext_snippets_witness :
    assocGet (addIntegrationsContext ⟨[], [], []⟩
        [("html_settings_links", .bool true)]) "settings_html"
      = some (.str (if htmlLinksEnabled [("html_settings_links", .bool true)]
          then "<a href=\"../../#settings\">Zulip settings page</a>"
          else "Zulip settings page"))
    ∧ assocGet (addIntegrationsContext ⟨[], [], []⟩
        [("html_settings_links", .bool true)]) "subscriptions_html"
      = some (.str (if htmlLinksEnabled [("html_settings_links", .bool true)]
          then "<a target=\"_blank\" href=\"../../#streams\">streams page</a>"
          else "streams page")) :=
  addIntegrationsContext_snippets ⟨[], [], []⟩ [("html_settings_links", .bool true)]
    (by simp) (by simp)

/-- C3: evaluation of `integration_doc` at a registry whose `foo` integration
has a non-empty `doc_context`.  Before the call the integration's own
`doc_context` has no `categories_dict` key; after the call it does, and the
registries are no longer equal to their pre-call value: because Python binds
`context = integration.doc_context or {}`, the enrichment writes through the
alias into the registry entry, so request handling does mutate the static
registries. -/
theorem integrationDoc_mutates_doc_context :
    ((assocGet regsBug.INTEGRATIONS "foo").map
        (fun i => assocGet i.docContext "categories_dict") = some none)
    ∧ ((assocGet regsBugAfter.INTEGRATIONS "foo").map
        (fun i => assocGet i.docContext "categories_dict")
        = some (some (.strDict [])))
    ∧ regsBugAfter ≠ regsBug := by
  refine ⟨rfl, rfl, ?_⟩
  intro h
  have h2 := congrArg (fun r : Registries =>
    (assocGet r.INTEGRATIONS "foo").map
      (fun i => assocGet i.docContext "categories_dict")) h
  have e2 : (assocGet regsBugAfter.INTEGRATIONS "foo").map
      (fun i => assocGet i.docContext "categories_dict")
      = some (some (.strDict [])) := rfl
  have e1 : (assocGet regsBug.INTEGRATIONS "foo").map
      (fun i => assocGet i.docContext "categories_dict") = some none := rfl
  have h3 := e2.symm.trans (h2.trans e1)
  exact Option.noConfusion (Option.some.inj h3)

theorem prefix_boundary : ∀ (p B q rest : List Char), '/' ∉ p → '/' ∉ B →
    ((p ++ '/' :: q) <+: (B ++ '/' :: rest)) → B = p
  | [], B, q, rest, _, hB, h => by
    cases B with
    | nil => rfl
    | cons b B' =>
      rw [List.nil_append, List.cons_append, List.cons_prefix_cons] at h
      exact absurd (h.1 ▸ List.mem_cons_self b B') hB
  | x :: p', B, q, rest, hp, hB, h => by
    cases B with
    | nil =>
      rw [List.cons_append, List.nil_append, List.cons_prefix_cons] at h
      exact absurd (h.1 ▸ List.mem_cons_self x p') hp
    | cons b B' =>
      rw [List.cons_append, List.cons_append, List.cons_prefix_cons] at h
      have hB' : '/' ∉ B' := fun hm => hB (List.mem_cons_of_mem b hm)
      have hp' : '/' ∉ p' := fun hm => hp (List.mem_cons_of_mem x hm)
      have hrec := prefix_boundary p' B' q rest hp' hB' h.2
      rw [h.1, hrec]

theorem suffix_iff_reverse (S L : List Char) :
    S <:+ L ↔ S.reverse <+: L.reverse := by
  constructor
  · intro h
    obtain ⟨t, ht⟩ := h
    exact ⟨t.reverse, by rw [← List.reverse_append, ht]⟩
  · intro h
    obtain ⟨t, ht⟩ := h
    refine ⟨t.reverse, ?_⟩
    rw [← List.reverse_reverse L, ← ht, List.reverse_append, List.reverse_reverse]

theorem suffix_index_iff (A : List Char) (hA : '/' ∉ A) :
    (['/','i','n','d','e','x','.','m','d'] <:+
      (['z','e','r','v','e','r','/','h','e','l','p','/'] ++ (A ++ ['.','m','d'])))
      ↔ A = ['i','n','d','e','x'] := by
  constructor
  · intro h
    rw [suffix_iff_reverse, List.reverse_append, List.reverse_append] at h
    simp only [List.append_assoc] at h
    rw [show (['/','i','n','d','e','x','.','m','d'] : List Char).reverse
        = ['d','m','.','x','e','d','n','i','/'] from rfl,
      show (['.','m','d'] : List Char).reverse = ['d','m','.'] from rfl,
      show (['z','e','r','v','e','r','/','h','e','l','p','/'] : List Char).reverse
        = ['/','p','l','e','h','/','r','e','v','r','e','z'] from rfl] at h
    simp only [List.cons_append, List.nil_append, List.cons_prefix_cons,
      true_and] at h
    have hrev : '/' ∉ A.reverse := fun hm => hA (List.mem_reverse.mp hm)
    have hB := prefix_boundary ['x','e','d','n','i'] A.reverse []
      ['p','l','e','h','/','r','e','v','r','e','z'] (by decide) hrev h
    rw [← List.reverse_reverse A, hB]
    rfl
  · intro h
    rw [h]
    decide

theorem strEndsWith_getPath_iff (article : String) :
    strEndsWith (getPath article) "/index.md" = true
      ↔ (article = "" ∨ article = "index") := by
  by_cases he : article = ""
  · subst he
    apply iff_of_true
    · decide
    · exact Or.inl rfl
  · by_cases hsl : article.data.contains '/' = true
    · have hp : getPath article = "zerver/help/missing.md" := by
        simp only [getPath]
        rw [if_neg he, if_pos hsl]
        rfl
      rw [hp]
      apply iff_of_false
      · decide
      · rintro (h | h)
        · exact he h
        · subst h; exact absurd hsl (by decide)
    · by_cases hi : article = "index"
      · subst hi
        apply iff_of_true
        · decide
        · exact Or.inr rfl
      · have hp : getPath article = "zerver/help/" ++ article ++ ".md" := by
          simp only [getPath]
          rw [if_neg he, if_neg hsl]
        rw [hp]
        apply iff_of_false
        · intro hEnds
          simp only [strEndsWith] at hEnds
          rw [List.isSuffixOf_iff_suffix] at hEnds
          have hdata : ("zerver/help/" ++ article ++ ".md").data
              = ['z','e','r','v','e','r','/','h','e','l','p','/']
                ++ (article.data ++ ['.','m','d']) := by
            rw [String.data_append, String.data_append, List.append_assoc]
          rw [hdata] at hEnds
          have hA : '/' ∉ article.data := fun hm => hsl (List.elem_iff.mpr hm)
          have hx := (suffix_index_iff article.data hA).mp hEnds
          exact hi (String.ext hx)
        · rintro (h | h)
          · exact he h
          · exact hi h

/-- C10: `HelpView` sets `context["not_index_page"]` to `False` exactly when
the article name is the empty string or the literal string `index` (both
resolve to a path ending in `/index.md`), and to `True` for every other
name, including names containing `/`. -/
theorem helpView_not_index_page (templates : String → Bool) (article : String)
    (superCtx : Ctx) :
    (assocGet (helpGetContextData templates article superCtx) "not_index_page"
        = some (.bool false) ↔ (article = "" ∨ article = "index"))
    ∧ (assocGet (helpGetContextData templates article superCtx) "not_index_page"
        = some (.bool true) ↔ ¬ (article = "" ∨ article = "index")) := by
  have hval : assocGet (helpGetContextData templates article superCtx)
      "not_index_page"
      = some (.bool (! strEndsWith (getPath article) "/index.md")) := by
    simp only [helpGetContextData]
    rw [assocGet_assocSet_ne _ _ (by decide), assocGet_assocSet_self]
  cases hb : strEndsWith (getPath article) "/index.md" with
  | false =>
    have hr : ¬ (article = "" ∨ article = "index") := fun hr => by
      have hc := (strEndsWith_getPath_iff article).mpr hr
      rw [hb] at hc
      exact Bool.noConfusion hc
    constructor
    · rw [hval, hb]
      apply iff_of_false
      · intro hcontra
        exact Bool.noConfusion (CtxVal.bool.inj (Option.some.inj hcontra))
      · exact hr
    · rw [hval, hb]
      exact iff_of_true rfl hr
  | true =>
    have hr : article = "" ∨ article = "index" := (strEndsWith_getPath_iff article).mp hb
    constructor
    · rw [hval, hb]
      exact iff_of_true rfl hr
    · rw [hval, hb]
      apply iff_of_false
      · intro hcontra
        exact Bool.noConfusion (CtxVal.bool.inj (Option.some.inj hcontra))
      · exact fun hc => hc hr
